import Mathlib

/-!
# Verification of the OCS re-encryption protocol (ocs/protocol/ocs.go)

A shallow embedding of the onchain-secrets re-encryption protocol.  The
cryptographic suite is modelled over an arbitrary commutative ring `R`:
both scalars and group points are elements of `R`, scalar multiplication
of a point is ring multiplication, the group generator is a distinguished
element `g`, and the random oracle `sha256`-based challenge derivation is
an arbitrary function `R → R → R → R`.  This keeps every definition
executable while preserving the exact algebraic structure (order of hash
inputs, sign conventions) of the Go source.

Machine integers: Go `int` subtractions that may go negative
(`len(o.Children())-o.Threshold`, `o.Threshold-1`) are performed in `ℤ`
at the comparison sites, mirroring the Go semantics exactly.
-/

namespace OCS

/-- `share.PubShare`: index `I` and group point `V`. -/
structure PubShare (R : Type) where
  I : Nat
  V : R
  deriving DecidableEq

/-- `ReencryptReply` message: `Ui = none` models the Go `nil` pointer of an
empty (refusal) reply; `Ei`, `Fi` are the proof scalars (zero-valued in a
refusal, where Go leaves them `nil` and never reads them). -/
structure ReencryptReply (R : Type) where
  Ui : Option (PubShare R)
  Ei : R
  Fi : R
  deriving DecidableEq

/-- The `Reencrypt` request message: `U` (encrypted secret), `Xc` (client
key), optional verification data (bytes modelled as `List Nat`). -/
structure Reencrypt (R : Type) where
  U : R
  Xc : R
  VerificationData : Option (List Nat)

/-- The cryptographic suite: generator point `g` (what
`Suite.Point().Mul(s, nil)` multiplies by) and the challenge derivation
`hash a b c`, modelling `Scalar().SetBytes(sha256(a ‖ b ‖ c))`. -/
structure Suite (R : Type) where
  g : R
  hash : R → R → R → R

variable {R : Type} [CommRing R] [DecidableEq R]

/-- `(o *OCS) getUI`: the node's partial re-encryption share
`v = x*U + x*Xc` tagged with the node's share index.  The Go function
returns an error value that is always `nil`; the `Option String` mirrors
that error slot. -/
def getUI (x : R) (idx : Nat) (U Xc : R) : PubShare R × Option String :=
  ({ I := idx, V := x * U + x * Xc }, none)

/-- Proof generation inside `reencrypt` (ocs.go lines 110-124): random
scalar `s`, commitments `uiHat = s*(U+Xc)`, `hiHat = s*g`, challenge
`ei = hash(ui.V, uiHat, hiHat)`, response `fi = s + ei*x`. -/
def genReply (suite : Suite R) (x : R) (idx : Nat) (U Xc s : R) :
    ReencryptReply R :=
  let ui := (getUI x idx U Xc).1
  let uiHat := s * (U + Xc)
  let hiHat := s * suite.g
  let ei := suite.hash ui.V uiHat hiHat
  { Ui := some ui, Ei := ei, Fi := s + ei * x }

/-- `(o *OCS) reencrypt`: the participant-node handler.  Returns the list
of messages sent to the parent.  The error branch after `getUI` sends
nothing; a policy refusal sends the empty reply; otherwise the share with
its proof is sent. -/
def reencryptNode (suite : Suite R) (x : R) (idx : Nat)
    (verify : Option (Reencrypt R → Bool)) (r : Reencrypt R) (s : R) :
    List (ReencryptReply R) :=
  match getUI x idx r.U r.Xc with
  | (_, some _) => []
  | (_, none) =>
    match verify with
    | some v =>
      if v r then [genReply suite x idx r.U r.Xc s]
      else [{ Ui := none, Ei := 0, Fi := 0 }]
    | none => [genReply suite x idx r.U r.Xc s]

/-- Proof verification in `reencryptReply` (ocs.go lines 151-166):
recompute `uiHat = fi*(U+Xc) + (-ei)*ui.V`, `hiHat = fi*g + (-ei)*gxi`
with `gxi = Poly.Eval(ui.I)`, rehash, and accept iff the recomputed
challenge equals `ei`. -/
def verifyShare (suite : Suite R) (U Xc : R) (pubEval : Nat → R)
    (ui : PubShare R) (ei fi : R) : Bool :=
  let ufi := fi * (U + Xc)
  let uiei := (-ei) * ui.V
  let uiHat := ufi + uiei
  let gfi := fi * suite.g
  let gxi := pubEval ui.I
  let hiei := (-ei) * gxi
  let hiHat := gfi + hiei
  decide (suite.hash ui.V uiHat hiHat = ei)

/-- The verification loop of `reencryptReply` (ocs.go lines 151-171):
fold over the collected replies, writing each proof-verified share into
slot `Ui.I` of the `Uis` array (out-of-range writes are modelled as
no-ops; Go would panic there, and no claim exercises that case). -/
def computeUis (suite : Suite R) (U Xc : R) (pubEval : Nat → R)
    (rs : List (ReencryptReply R)) (base : List (Option (PubShare R))) :
    List (Option (PubShare R)) :=
  rs.foldl (fun uis r =>
    match r.Ui with
    | some ui =>
      if verifyShare suite U Xc pubEval ui r.Ei r.Fi then
        uis.set ui.I (some ui)
      else uis
    | none => uis) base

/-- Coordinator-side state of one protocol run: the `OCS` struct fields
used by `reencryptReply`, plus `outcomes` recording the values written to
the `Reencrypted` channel in order, and `done` recording whether
`o.Done()` was called. `numChildren = len(o.Children())`,
`numList = len(o.List())`, `pubEval = o.Poly.Eval(·).V`. -/
structure OCSState (R : Type) where
  threshold : Nat
  numChildren : Nat
  numList : Nat
  U : R
  Xc : R
  sharedV : R
  sharedIndex : Nat
  pubEval : Nat → R
  Failures : Nat
  replies : List (ReencryptReply R)
  Uis : List (Option (PubShare R))
  outcomes : List Bool
  done : Bool

/-- `NewOCS` (ocs.go lines 48-60): initialises the run state for a roster
of `n` nodes with `Threshold = n - (n-1)/3`; the service-set fields
(`U`, `Xc`, `Shared`, `Poly`) and the tree shape are passed in as
arguments since the caller configures them before `Start`. -/
def NewOCS (n numChildren : Nat) (U Xc sharedV : R) (sharedIndex : Nat)
    (pubEval : Nat → R) : OCSState R :=
  { threshold := n - (n - 1) / 3
    numChildren := numChildren
    numList := n
    U := U, Xc := Xc
    sharedV := sharedV, sharedIndex := sharedIndex
    pubEval := pubEval
    Failures := 0, replies := [], Uis := [], outcomes := []
    done := false }

/-- `(o *OCS) reencryptReply` (ocs.go lines 129-176): one invocation of
the coordinator's reply handler.  A `nil` `Ui` increments `Failures` and
fails the run when `Failures >= len(Children) - Threshold` (Go `int`
comparison, taken in `ℤ`).  Otherwise the reply is appended and, once
`len(replies) >= Threshold - 1`, the `Uis` array is built (own share at
slot 0, proof-verified replies at their indices) and `true` is
published. -/
def reencryptReply (suite : Suite R) (o : OCSState R)
    (rr : ReencryptReply R) : OCSState R :=
  match rr.Ui with
  | none =>
    let o' := { o with Failures := o.Failures + 1 }
    if (o'.Failures : Int) ≥ (o'.numChildren : Int) - (o'.threshold : Int) then
      { o' with outcomes := o'.outcomes ++ [false], done := true }
    else o'
  | some _ =>
    let o' := { o with replies := o.replies ++ [rr] }
    if ((o'.replies.length : Int) ≥ (o'.threshold : Int) - 1) then
      let own := (getUI o.sharedV o.sharedIndex o.U o.Xc).1
      let base :=
        (List.replicate o.numList (none : Option (PubShare R))).set 0 (some own)
      { o' with
          Uis := computeUis suite o.U o.Xc o.pubEval o'.replies base
          outcomes := o'.outcomes ++ [true]
          done := true }
    else o'

/-- A run of the coordinator over a sequence of arriving replies.
Modelled from the spec (§5) for the external transport layer: once
`o.Done()` has been called the protocol instance is deregistered and
"further late replies are ignored (the run is already terminal)", so
delivery is gated on `done`.  Each delivered reply is handled by
`reencryptReply` exactly as in ocs.go. -/
def runReplies (suite : Suite R) (o : OCSState R)
    (evts : List (ReencryptReply R)) : OCSState R :=
  evts.foldl (fun s e => if s.done then s else reencryptReply suite s e) o

/-- Number of accepted shares in the published `Uis` array (non-`nil`
slots: the coordinator's own share plus each proof-verified reply). -/
def acceptedCount (o : OCSState R) : Nat :=
  o.Uis.countP (fun x => x.isSome)

/-- Result of `(o *OCS) Start` (ocs.go lines 63-91): the values written
to the `Reencrypted` channel, whether `Broadcast` was invoked, and the
returned error. -/
structure StartResult where
  outcomes : List Bool
  broadcast : Bool
  error : Option String

/-- `(o *OCS) Start`: precondition checks on `Shared` and `U`, request
construction (verification data attached only when non-empty), the policy
hook gate (on rejection: publish `false`, `Done()`, return an error,
never broadcast), then broadcast; `broadcastErrs` is the number of failed
sends reported by `Broadcast`, fatal when above `(n-1)/3`. -/
def Start (rosterLen : Nat) (sharedPresent UPresent : Bool) (U Xc : R)
    (verificationData : List Nat) (verify : Option (Reencrypt R → Bool))
    (broadcastErrs : Nat) : StartResult :=
  if sharedPresent = false then
    ⟨[], false, some "please initialize Shared first"⟩
  else if UPresent = false then
    ⟨[], false, some "please initialize U first"⟩
  else
    let rc : Reencrypt R :=
      { U := U, Xc := Xc
        VerificationData :=
          if verificationData.length > 0 then some verificationData else none }
    let afterVerify : Option StartResult :=
      match verify with
      | some v =>
        if ! v rc then some ⟨[false], false, some "refused to reencrypt"⟩
        else none
      | none => none
    match afterVerify with
    | some res => res
    | none =>
      if broadcastErrs > (rosterLen - 1) / 3 then
        ⟨[], true, some "too many nodes failed in broadcast"⟩
      else
        ⟨[], true, none⟩

end OCS

namespace OCS

/-! ## Concrete instances used by counterexamples and witnesses

All concrete runs are over `R = ℤ` with generator `g = 2` and the hash
modelled as `hash a b c = a + b + c`.  Node `i` holds secret `xᵢ = 3 + i`,
so the public commitment evaluates to `pubEval i = 2 * (3 + i) = xᵢ * g`.
The coordinator (secret `3`, index `0`) runs a 4-node cluster
(`threshold = 4 - 3/3 = 3`, three children) on `U = 7`, `Xc = 11`. -/

def zSuite : Suite ℤ := ⟨2, fun a b c => a + b + c⟩

def zPubEval : Nat → ℤ := fun i => 2 * (3 + i)

def run4 : OCSState ℤ := NewOCS 4 3 7 11 3 0 zPubEval

/-- Honest reply of node 1 (secret 4), random scalar 13. -/
def zReply1 : ReencryptReply ℤ := genReply zSuite 4 1 7 11 13

/-- Honest reply of node 2 (secret 5), random scalar 17. -/
def zReply2 : ReencryptReply ℤ := genReply zSuite 5 2 7 11 17

/-- A refusal: the empty reply (`Ui = nil`). -/
def zRefusal : ReencryptReply ℤ := ⟨none, 0, 0⟩

/-- A reply for index 1 whose proof does not verify. -/
def zBad1 : ReencryptReply ℤ := ⟨some ⟨1, 999⟩, 0, 1⟩

/-- A reply for index 2 whose proof does not verify. -/
def zBad2 : ReencryptReply ℤ := ⟨some ⟨2, 998⟩, 0, 1⟩

/-- A 7-node cluster (`threshold = 7 - 2 = 5`, six children). -/
def run7 : OCSState ℤ := NewOCS 7 6 7 11 3 0 zPubEval

/-! Second concrete family (for C5): `U = 5`, `Xc = 9`, secrets
`xᵢ = 6 + 2i`, `pubEval i = 2 * (6 + 2i) = xᵢ * g`. -/

def wPubEval : Nat → ℤ := fun i => 2 * (6 + 2 * i)

def run4w : OCSState ℤ := NewOCS 4 3 5 9 6 0 wPubEval

/-- Honest reply of node 1 (secret 8), random scalar 23, second family. -/
def wReply1 : ReencryptReply ℤ := genReply zSuite 8 1 5 9 23

/-- Honest reply of node 2 (secret 10), random scalar 29, second family. -/
def wReply2 : ReencryptReply ℤ := genReply zSuite 10 2 5 9 29

end OCS

namespace OCS

/-- C7: When a protocol instance is created for a cluster of `n` nodes,
its threshold is initialized to exactly `n - (n-1)/3` (integer
division), as in `NewOCS` (ocs.go line 52). -/
theorem C7_newOCS_threshold {R : Type} (n numChildren : Nat) (U Xc sharedV : R)
    (sharedIndex : Nat) (pubEval : Nat → R) :
    (NewOCS n numChildren U Xc sharedV sharedIndex pubEval).threshold =
      n - (n - 1) / 3 := rfl

/-- C10: `getUI` never returns a non-`nil` error, so the error branch of
`reencrypt` is unreachable and a participant node always sends exactly
one reply to its parent — a share with proof or an empty refusal. -/
theorem C10_getUI_no_error_one_reply {R : Type} [CommRing R]
    (suite : Suite R) (x : R) (idx : Nat)
    (verify : Option (Reencrypt R → Bool)) (r : Reencrypt R) (s U Xc : R) :
    (getUI x idx U Xc).2 = none ∧
    (reencryptNode suite x idx verify r s).length = 1 := by
  refine ⟨rfl, ?_⟩
  cases verify with
  | none => rfl
  | some v =>
    simp only [reencryptNode, getUI]
    by_cases h : v r <;> simp [h]

/-- C9: if the coordinator's policy hook is present and rejects the
request, `Start` publishes `false`, performs no broadcast, and returns an
error (ocs.go lines 78-84). -/
theorem C9_policy_reject_no_broadcast {R : Type} (rosterLen : Nat) (U Xc : R)
    (vdata : List Nat) (v : Reencrypt R → Bool) (broadcastErrs : Nat)
    (hrej : v { U := U, Xc := Xc,
                VerificationData :=
                  if vdata.length > 0 then some vdata else none } = false) :
    (Start rosterLen true true U Xc vdata (some v) broadcastErrs).outcomes
        = [false] ∧
    (Start rosterLen true true U Xc vdata (some v) broadcastErrs).broadcast
        = false := by
  simp [Start, hrej]

/-- C9 witness: a concrete rejecting hook on a 4-node roster. -/
theorem C9_policy_reject_no_broadcast_witness :
    (Start (R := ℤ) 4 true true 7 11 [] (some fun _ => false) 0).outcomes
        = [false] ∧
    (Start (R := ℤ) 4 true true 7 11 [] (some fun _ => false) 0).broadcast
        = false :=
  C9_policy_reject_no_broadcast 4 7 11 [] (fun _ => false) 0 rfl

end OCS

namespace OCS

/-- C8: completeness of the Chaum-Pedersen proof.  For every secret
scalar `x` whose public key share satisfies `pubEval idx = x * g`, every
random scalar `s` and all points `U`, `Xc`, the share `ui = x*U + x*Xc`
together with the proof produced by `reencrypt`
(`e = hash(ui.V, s*(U+Xc), s*g)`, `f = s + e*x`) is accepted by the
coordinator's verification: the challenge recomputed from
`f*(U+Xc) - e*ui.V` and `f*g - e*pubEval idx` equals `e`. -/
theorem C8_honest_share_verifies {R : Type} [CommRing R] [DecidableEq R]
    (suite : Suite R) (x s U Xc : R) (idx : Nat) (pubEval : Nat → R)
    (hpub : pubEval idx = x * suite.g) :
    verifyShare suite U Xc pubEval ((getUI x idx U Xc).1)
      (genReply suite x idx U Xc s).Ei
      (genReply suite x idx U Xc s).Fi = true := by
  simp only [verifyShare, genReply, getUI, hpub]
  have hA : ∀ e : R,
      (s + e * x) * (U + Xc) + (-e) * (x * U + x * Xc) = s * (U + Xc) := by
    intro e; ring
  have hB : ∀ e : R,
      (s + e * x) * suite.g + (-e) * (x * suite.g) = s * suite.g := by
    intro e; ring
  rw [hA, hB]
  simp

/-- C8 witness: node 1 of the concrete cluster (secret 4, `pubEval 1 = 8
= 4 * g`), random scalar 13, on `U = 7`, `Xc = 11`. -/
theorem C8_honest_share_verifies_witness :
    verifyShare zSuite 7 11 zPubEval ((getUI (4 : ℤ) 1 7 11).1)
      (genReply zSuite 4 1 7 11 13).Ei
      (genReply zSuite 4 1 7 11 13).Fi = true :=
  C8_honest_share_verifies zSuite 4 13 7 11 1 zPubEval (by decide)

end OCS

namespace OCS

/-- C1 counterexample: in the 4-node cluster (`threshold = 3`), two
replies whose proofs fail verification still drive the run to publish
`true`, with only the coordinator's own share in the accepted set
(`acceptedCount = 1`), i.e. zero proof-verified shares from other nodes
— far fewer than `threshold - 1 = 2`. -/
theorem C1_counterexample :
    (runReplies zSuite run4 [zBad1, zBad2]).outcomes = [true] ∧
    acceptedCount (runReplies zSuite run4 [zBad1, zBad2]) = 1 ∧
    run4.threshold = 3 ∧
    verifyShare zSuite run4.U run4.Xc run4.pubEval ⟨1, 999⟩ 0 1 = false ∧
    verifyShare zSuite run4.U run4.Xc run4.pubEval ⟨2, 998⟩ 0 1 = false := by
  decide

/-- C1 (amended): a non-refusal reply is appended to the reply list
unconditionally, and the coordinator publishes `true` exactly when the
number of collected non-refusal replies reaches `threshold - 1` — proof
verification happens only afterwards and merely selects which shares
enter the published `Uis` set, so invalid-proof replies do count toward
the quorum.  `Failures` is untouched by a non-refusal reply. -/
theorem C1_quorum_counts_all_replies {R : Type} [CommRing R] [DecidableEq R]
    (suite : Suite R) (o : OCSState R) (rr : ReencryptReply R)
    (ui : PubShare R) (hui : rr.Ui = some ui) :
    ((reencryptReply suite o rr).outcomes = o.outcomes ++ [true] ↔
      ((o.replies.length : Int) + 1 ≥ (o.threshold : Int) - 1)) ∧
    (reencryptReply suite o rr).replies = o.replies ++ [rr] ∧
    (reencryptReply suite o rr).Failures = o.Failures := by
  simp only [reencryptReply, hui]
  by_cases h : ((o.replies ++ [rr]).length : Int) ≥ (o.threshold : Int) - 1
  · simp only [if_pos h]
    refine ⟨⟨fun _ => by simpa using h, fun _ => by trivial⟩,
      by trivial, by trivial⟩
  · simp only [if_neg h]
    refine ⟨⟨fun hfalse => absurd (congrArg List.length hfalse) (by simp),
      fun hge => absurd (by simpa using hge) h⟩, by trivial, by trivial⟩

/-- C1 witness: the amended characterization at the invalid-proof reply
`zBad1` arriving first in the concrete 4-node run. -/
theorem C1_quorum_counts_all_replies_witness :
    ((reencryptReply zSuite run4 zBad1).outcomes = run4.outcomes ++ [true] ↔
      ((run4.replies.length : Int) + 1 ≥ (run4.threshold : Int) - 1)) ∧
    (reencryptReply zSuite run4 zBad1).replies = run4.replies ++ [zBad1] ∧
    (reencryptReply zSuite run4 zBad1).Failures = run4.Failures :=
  C1_quorum_counts_all_replies zSuite run4 zBad1 ⟨1, 999⟩ rfl

/-- C2 counterexample: in the 4-node cluster with one refusal and two
valid replies, the outcome is NOT order-independent — when the refusal
arrives first the run ends with `false` (the first refusal already meets
`Failures >= numChildren - threshold = 0`), not `true`. -/
theorem C2_counterexample :
    (runReplies zSuite run4 [zRefusal, zReply1, zReply2]).outcomes
      = [false] := by
  decide

/-- C2 (amended): for `n = 4`, `threshold = 3`, one refusal and two
valid replies, the outcome depends on arrival order: if both valid
replies arrive before the refusal the run ends with `true` and an
accepted-share set of size 3 (the two verified replies plus the
coordinator's own share); if the refusal arrives first or between the
valid replies, the run ends with `false`. -/
theorem C2_order_dependent_outcome :
    (runReplies zSuite run4 [zReply1, zReply2, zRefusal]).outcomes
        = [true] ∧
    acceptedCount (runReplies zSuite run4 [zReply1, zReply2, zRefusal])
        = 3 ∧
    (runReplies zSuite run4 [zReply1, zRefusal, zReply2]).outcomes
        = [false] ∧
    (runReplies zSuite run4 [zRefusal, zReply1, zReply2]).outcomes
        = [false] := by
  decide

/-- C3 counterexample: in the 7-node cluster (`threshold = 5`, six
children) a single refusal already makes the run publish `false`:
`failureCount = 1` equals `totalChildren - threshold = 1` but is not
strictly greater than it, contradicting both the strict inequality and
the claimed tolerance of `floor((7-1)/3) = 2` refusing nodes. -/
theorem C3_counterexample :
    (reencryptReply zSuite run7 zRefusal).outcomes = [false] ∧
    (reencryptReply zSuite run7 zRefusal).Failures = 1 ∧
    run7.numChildren = 6 ∧ run7.threshold = 5 ∧
    ¬((1 : Int) > (6 : Int) - (5 : Int)) := by
  decide

/-- C3 (amended): each refusal increments `Failures`, and the run
publishes `false` exactly when the incremented count becomes greater
than OR EQUAL to `totalChildren - threshold` (Go `>=` at ocs.go line
133), so with a flat tree of `n` nodes only
`max(0, floor((n-1)/3) - 2)` refusals are tolerated, not
`floor((n-1)/3)`. -/
theorem C3_failure_check_not_strict {R : Type} [CommRing R] [DecidableEq R]
    (suite : Suite R) (o : OCSState R) (rr : ReencryptReply R)
    (hui : rr.Ui = none) :
    (reencryptReply suite o rr).Failures = o.Failures + 1 ∧
    ((reencryptReply suite o rr).outcomes = o.outcomes ++ [false] ↔
      ((o.Failures : Int) + 1 ≥
        (o.numChildren : Int) - (o.threshold : Int))) := by
  simp only [reencryptReply, hui]
  by_cases h : ((o.Failures + 1 : Nat) : Int) ≥
      (o.numChildren : Int) - (o.threshold : Int)
  · simp only [if_pos h]
    refine ⟨by trivial, ⟨fun _ => by simpa using h, fun _ => by trivial⟩⟩
  · simp only [if_neg h]
    refine ⟨by trivial,
      ⟨fun hfalse => absurd (congrArg List.length hfalse) (by simp),
       fun hge => absurd (by simpa using hge) h⟩⟩

/-- C3 witness: the amended characterization at a refusal arriving first
in the concrete 7-node run. -/
theorem C3_failure_check_not_strict_witness :
    (reencryptReply zSuite run7 zRefusal).Failures = run7.Failures + 1 ∧
    ((reencryptReply zSuite run7 zRefusal).outcomes
        = run7.outcomes ++ [false] ↔
      ((run7.Failures : Int) + 1 ≥
        (run7.numChildren : Int) - (run7.threshold : Int))) :=
  C3_failure_check_not_strict zSuite run7 zRefusal rfl

end OCS

namespace OCS

/-- Any single handler invocation either leaves the channel and `done`
flag untouched, or marks the run done and writes exactly one value. -/
lemma step_outcomes {R : Type} [CommRing R] [DecidableEq R]
    (suite : Suite R) (o : OCSState R) (rr : ReencryptReply R) :
    ((reencryptReply suite o rr).outcomes = o.outcomes ∧
      (reencryptReply suite o rr).done = o.done) ∨
    ((reencryptReply suite o rr).done = true ∧
      ∃ b, (reencryptReply suite o rr).outcomes = o.outcomes ++ [b]) := by
  cases hui : rr.Ui with
  | none =>
    simp only [reencryptReply, hui]
    by_cases h : ((o.Failures + 1 : Nat) : Int) ≥
        (o.numChildren : Int) - (o.threshold : Int)
    · simp only [if_pos h]
      exact Or.inr ⟨by trivial, false, by trivial⟩
    · simp only [if_neg h]
      exact Or.inl ⟨by trivial, by trivial⟩
  | some ui =>
    simp only [reencryptReply, hui]
    by_cases h : ((o.replies ++ [rr]).length : Int) ≥ (o.threshold : Int) - 1
    · simp only [if_pos h]
      exact Or.inr ⟨by trivial, true, by trivial⟩
    · simp only [if_neg h]
      exact Or.inl ⟨by trivial, by trivial⟩

/-- Unfolding one delivery step of `runReplies`. -/
lemma runReplies_cons {R : Type} [CommRing R] [DecidableEq R]
    (suite : Suite R) (o : OCSState R) (e : ReencryptReply R)
    (es : List (ReencryptReply R)) :
    runReplies suite o (e :: es) =
      runReplies suite (if o.done then o else reencryptReply suite o e)
        es := rfl

/-- Single-write invariant: if a state has written nothing while not
done, and at most one value overall, the same holds after any sequence
of deliveries. -/
lemma run_invariant {R : Type} [CommRing R] [DecidableEq R]
    (suite : Suite R) (evts : List (ReencryptReply R)) (o : OCSState R)
    (h : (o.done = false → o.outcomes = []) ∧ o.outcomes.length ≤ 1) :
    ((runReplies suite o evts).done = false →
      (runReplies suite o evts).outcomes = []) ∧
    (runReplies suite o evts).outcomes.length ≤ 1 := by
  induction evts generalizing o with
  | nil => exact h
  | cons e es ih =>
    rw [runReplies_cons]
    by_cases hd : o.done = true
    · rw [if_pos hd]
      exact ih o h
    · have hdf : o.done = false := by simpa using hd
      rw [if_neg (by simp [hdf])]
      have hout : o.outcomes = [] := h.1 hdf
      rcases step_outcomes suite o e with ⟨h1, h2⟩ | ⟨h1, b, h2⟩
      · exact ih _ ⟨fun _ => by rw [h1, hout], by rw [h1, hout]; simp⟩
      · refine ih _ ⟨fun hcon => ?_, ?_⟩
        · rw [h1] at hcon; cases hcon
        · rw [h2, hout]; simp

/-- Overwriting an option-list slot that was just set keeps the number
of `some` entries unchanged. -/
lemma countP_set_some {α : Type} (l : List (Option α)) (i : Nat)
    (a b : α) :
    ((l.set i (some a)).countP (fun x => x.isSome)) =
      ((l.set i (some b)).countP (fun x => x.isSome)) := by
  induction l generalizing i with
  | nil => simp
  | cons hd tl ih =>
    cases i with
    | zero => simp [List.countP_cons]
    | succ n =>
      simp only [List.set_cons_succ, List.countP_cons]
      rw [ih n]

/-- C4 counterexample: an invalid-proof reply is NOT neutral — arriving
after one valid reply in the 4-node cluster it completes the
`len(replies) >= threshold - 1` quorum, so the run terminates with
`true` instead of continuing, with only 2 accepted shares. -/
theorem C4_counterexample :
    verifyShare zSuite run4.U run4.Xc run4.pubEval ⟨2, 998⟩ 0 1 = false ∧
    (runReplies zSuite run4 [zReply1, zBad2]).outcomes = [true] ∧
    (runReplies zSuite run4 [zReply1, zBad2]).done = true ∧
    acceptedCount (runReplies zSuite run4 [zReply1, zBad2]) = 2 := by
  decide

/-- C4 (amended): a reply with a failing proof leaves `Failures`
untouched and contributes nothing to the accepted `Uis` set (the
verification fold skips it), but it still counts toward the reply
quorum: it is appended to `replies` and publishes `true` exactly when it
brings the reply count to `threshold - 1`, terminating the run. -/
theorem C4_invalid_share_dropped_but_counted {R : Type} [CommRing R]
    [DecidableEq R] (suite : Suite R) (o : OCSState R)
    (rr : ReencryptReply R) (ui : PubShare R)
    (rs : List (ReencryptReply R)) (base : List (Option (PubShare R)))
    (hui : rr.Ui = some ui)
    (hbad : verifyShare suite o.U o.Xc o.pubEval ui rr.Ei rr.Fi = false) :
    (reencryptReply suite o rr).Failures = o.Failures ∧
    computeUis suite o.U o.Xc o.pubEval (rs ++ [rr]) base =
      computeUis suite o.U o.Xc o.pubEval rs base ∧
    ((reencryptReply suite o rr).outcomes = o.outcomes ++ [true] ↔
      ((o.replies.length : Int) + 1 ≥ (o.threshold : Int) - 1)) := by
  have hcu : computeUis suite o.U o.Xc o.pubEval (rs ++ [rr]) base =
      computeUis suite o.U o.Xc o.pubEval rs base := by
    simp only [computeUis, List.foldl_append, List.foldl_cons,
      List.foldl_nil, hui, hbad]
    simp
  refine ⟨?_, hcu, ?_⟩ <;> simp only [reencryptReply, hui]
  · by_cases h : ((o.replies ++ [rr]).length : Int) ≥ (o.threshold : Int) - 1
    · simp only [if_pos h]
    · simp only [if_neg h]
  · by_cases h : ((o.replies ++ [rr]).length : Int) ≥ (o.threshold : Int) - 1
    · simp only [if_pos h]
      exact ⟨fun _ => by simpa using h, fun _ => by trivial⟩
    · simp only [if_neg h]
      exact ⟨fun hfalse => absurd (congrArg List.length hfalse) (by simp),
             fun hge => absurd (by simpa using hge) h⟩

/-- C4 witness: the invalid reply `zBad2` arriving after the valid
`zReply1` in the concrete 4-node run. -/
theorem C4_invalid_share_dropped_but_counted_witness :
    (reencryptReply zSuite run4 zBad2).Failures = run4.Failures ∧
    computeUis zSuite run4.U run4.Xc run4.pubEval ([zReply1] ++ [zBad2])
        (List.replicate 4 none) =
      computeUis zSuite run4.U run4.Xc run4.pubEval [zReply1]
        (List.replicate 4 none) ∧
    ((reencryptReply zSuite run4 zBad2).outcomes
        = run4.outcomes ++ [true] ↔
      ((run4.replies.length : Int) + 1 ≥ (run4.threshold : Int) - 1)) :=
  C4_invalid_share_dropped_but_counted zSuite run4 zBad2 ⟨2, 998⟩
    [zReply1] (List.replicate 4 none) rfl (by decide)

/-- C5 counterexample: the same multiset of replies (one refusal, two
valid shares — the two lists are permutations of each other) yields
outcome `false` when the refusal arrives first and `true` when it
arrives last, so the final boolean is not arrival-order independent. -/
theorem C5_counterexample :
    List.Perm [zRefusal, wReply1, wReply2] [wReply1, wReply2, zRefusal] ∧
    (runReplies zSuite run4w [zRefusal, wReply1, wReply2]).outcomes
        = [false] ∧
    (runReplies zSuite run4w [wReply1, wReply2, zRefusal]).outcomes
        = [true] := by
  decide

/-- C5 (amended): starting from a fresh run (no outcome written yet),
any sequence of arriving replies leads to at most one write of the
outcome — the transport delivers no reply after `Done()` — but the value
written is not determined by the multiset of replies alone. -/
theorem C5_outcome_written_at_most_once {R : Type} [CommRing R]
    [DecidableEq R] (suite : Suite R) (o : OCSState R)
    (evts : List (ReencryptReply R)) (hout : o.outcomes = []) :
    (runReplies suite o evts).outcomes.length ≤ 1 :=
  (run_invariant suite evts o ⟨fun _ => hout, by rw [hout]; simp⟩).2

/-- C5 witness: at-most-once on the concrete refusal-first run. -/
theorem C5_outcome_written_at_most_once_witness :
    (runReplies zSuite run4w [zRefusal, wReply1, wReply2]).outcomes.length
      ≤ 1 :=
  C5_outcome_written_at_most_once zSuite run4w
    [zRefusal, wReply1, wReply2] rfl

/-- C6 counterexample: two copies of the same (valid, index-1) reply in
the 4-node cluster reach the `threshold - 1 = 2` quorum and publish
`true` with only 2 accepted shares — the duplicate is not a no-op: it
counts toward the quorum. -/
theorem C6_counterexample :
    (runReplies zSuite run4 [zReply1, zReply1]).outcomes = [true] ∧
    acceptedCount (runReplies zSuite run4 [zReply1, zReply1]) = 2 ∧
    run4.threshold = 3 := by
  decide

/-- C6 (amended): a second reply carrying an index whose share is
already accepted does not change the size of the accepted-share set
(`Uis` is keyed by index, so the slot is just rewritten), but the
duplicate reply itself still counts toward the reply-count quorum
(the reply list grows by one). -/
theorem C6_duplicate_index_not_double_counted {R : Type} [CommRing R]
    [DecidableEq R] (suite : Suite R) (U Xc : R) (pubEval : Nat → R)
    (rs : List (ReencryptReply R)) (base : List (Option (PubShare R)))
    (r r' : ReencryptReply R) (a b : PubShare R)
    (ha : r.Ui = some a) (hb : r'.Ui = some b) (hab : a.I = b.I)
    (hver : verifyShare suite U Xc pubEval a r.Ei r.Fi = true) :
    ((computeUis suite U Xc pubEval (rs ++ [r, r']) base).countP
        (fun x => x.isSome)) =
      ((computeUis suite U Xc pubEval (rs ++ [r]) base).countP
        (fun x => x.isSome)) ∧
    (rs ++ [r, r']).length = (rs ++ [r]).length + 1 := by
  refine ⟨?_, by simp⟩
  simp only [computeUis, List.foldl_append, List.foldl_cons, List.foldl_nil,
    ha, hb, hver, if_true]
  by_cases hc : verifyShare suite U Xc pubEval b r'.Ei r'.Fi = true
  · simp only [if_pos hc]
    rw [hab, List.set_set]
    exact countP_set_some _ _ b a
  · simp only [if_neg hc]

/-- C6 witness: the duplicate of the valid reply `zReply1` in the
concrete 4-node run. -/
theorem C6_duplicate_index_not_double_counted_witness :
    ((computeUis zSuite 7 11 zPubEval ([] ++ [zReply1, zReply1])
        (List.replicate 4 none)).countP (fun x => x.isSome)) =
      ((computeUis zSuite 7 11 zPubEval ([] ++ [zReply1])
        (List.replicate 4 none)).countP (fun x => x.isSome)) ∧
    ([] ++ [zReply1, zReply1]).length = ([] ++ [zReply1]).length + 1 :=
  C6_duplicate_index_not_double_counted zSuite 7 11 zPubEval []
    (List.replicate 4 none) zReply1 zReply1 ⟨1, 72⟩ ⟨1, 72⟩
    (by decide) (by decide) rfl (by decide)

end OCS
